import Mathlib

/-!
Shallow embedding of the DESC perturbation engine: the `perturb` orchestrator
of `desc/perturbations.py`, the `Configuration` plasma-state container of
`desc/configuration.py`, and the trust-region subproblem solver it calls.
Real vectors and matrices are modelled as lists of rationals; numerical
kernels that are external to the repository (the LAPACK SVD, the Euclidean
norm) are abstracted as function parameters supplied by the caller.
-/

namespace DESC

abbrev Vec := List ℚ

abbrev Mat := List (List ℚ)

def vecAdd (a b : Vec) : Vec := List.zipWith (· + ·) a b

def smul (c : ℚ) (v : Vec) : Vec := v.map (fun q => c * q)

def dot (a b : Vec) : ℚ := (List.zipWith (· * ·) a b).sum

def matVec (mat : Mat) (v : Vec) : Vec := mat.map (fun row => dot row v)

def colCount (mat : Mat) : Nat := (mat.headD []).length

def transpose (mat : Mat) : Mat :=
  (List.range (colCount mat)).map (fun j => mat.map (fun row => row.getD j 0))

def matTvec (mat : Mat) (v : Vec) : Vec := matVec (transpose mat) v

def scaleRows (c : Vec) (mat : Mat) : Mat :=
  List.zipWith (fun q row => row.map (fun e => q * e)) c mat

def matMul (a b : Mat) : Mat :=
  a.map (fun row => (transpose b).map (fun col => dot row col))

def sq (q : ℚ) : ℚ := q * q

def normSq (v : Vec) : ℚ := (v.map (fun q => q * q)).sum

def sMax (s : Vec) : ℚ := s.foldl max 0

/-- Modelled from the spec: coefficients, in the singular basis, of the
unconstrained least-squares solution `dx0 = V diag(1/S) Ut RHS`
(`desc/optimize/tr_subproblems.py` is not under `src/`). Singular values at or
below the absolute cutoff are treated as exactly zero (spec section 4.2). -/
def pinvCoeffs (s suf : Vec) (cut : ℚ) : Vec :=
  List.zipWith (fun si ui => if cut < si then ui / si else 0) s suf

/-- Modelled from the spec: coefficients of the damped (Levenberg-Marquardt)
step `dx(alpha) = V diag(S/(S^2+alpha)) Ut RHS` (spec section 4.2). -/
def dampedCoeffs (s suf : Vec) (a : ℚ) : Vec :=
  List.zipWith (fun si ui => si * ui / (si * si + a)) s suf

/-- Modelled from the spec: the unconstrained least-squares solution of the
trust-region subproblem, produced by a pseudo-inverse with a relative
small-singular-value cutoff `threshold * S_max` (spec section 4.2). -/
def dx0Vec (f : Vec) (u : Mat) (s : Vec) (v : Mat) (threshold : ℚ) : Vec :=
  matVec v (pinvCoeffs s (matTvec u f) (threshold * sMax s))

/-- Modelled from the spec: the bracketing phase of the safeguarded 1-D root
find over the damping parameter. The damping is doubled until the damped step
fits inside the trust region, giving an upper bracket endpoint. -/
def findHi (dxOf : ℚ → Vec) (dsq : ℚ) : Nat → ℚ → Option ℚ
  | 0, _ => none
  | Nat.succ k, a => if normSq (dxOf a) ≤ dsq then some a else findHi dxOf dsq k (2 * a)

/-- Modelled from the spec: the safeguarded iteration on the damping parameter
`alpha`, terminated when the step norm is within `rtol * Delta` of `Delta` and
bounded by `max_iter` iterations; the upper bracket endpoint always keeps a
step inside the trust region, and is returned on non-convergence. -/
def bisectTR (dxOf : ℚ → Vec) (D rtol : ℚ) : Nat → ℚ → ℚ → Vec × Bool × ℚ
  | 0, _, hi => (dxOf hi, true, hi)
  | Nat.succ k, lo, hi =>
    let mid := (lo + hi) / 2
    let nm := normSq (dxOf mid)
    if sq (D * (1 - rtol)) ≤ nm ∧ nm ≤ sq (D * (1 + rtol)) then (dxOf mid, true, mid)
    else if D * D < nm then bisectTR dxOf D rtol k mid hi
    else bisectTR dxOf D rtol k lo mid

/-- Modelled from the spec: `trust_region_step_exact` of
`desc/optimize/tr_subproblems.py`, which is not under `src/` (only its caller
`perturb` is). Solves min over dx of the norm of `J dx + RHS` subject to a
trust-region radius `Delta`, given the SVD factors of `J`. The unconstrained
solution is returned directly when it fits inside the region (`hit = false`,
`alpha = 0`); otherwise a safeguarded root find over the damping parameter is
run for at most `max_iter` iterations. Norm comparisons are carried out on
squared norms so that the definition is executable over the rationals. -/
def trust_region_step_exact (n m : Nat) (f : Vec) (u : Mat) (s : Vec) (v : Mat)
    (Delta : ℚ) (initial_alpha : Option ℚ) (rtol : ℚ) (max_iter : Nat)
    (threshold : ℚ) : Vec × Bool × ℚ :=
  let p0 := dx0Vec f u s v threshold
  if normSq p0 ≤ Delta * Delta then (p0, false, 0)
  else
    let suf := matTvec u f
    let dxOf := fun a => matVec v (dampedCoeffs s suf a)
    let a0 := match initial_alpha with
      | some a => max a 1
      | none => 1
    match findHi dxOf (Delta * Delta) 100 a0 with
    | some hi => bisectTR dxOf Delta rtol max_iter 0 hi
    | none => (List.replicate v.length 0, true, 0)

/-! The plasma-state container of `desc/configuration.py`. A spectral basis is
modelled by its ordered list of `(l, m, n)` mode triples, so that
`num_modes = modes.length`; the objective attached by the solver and the
`built` flag live on the equilibrium exactly as `perturb` accesses them. -/

abbrev Mode := ℤ × ℤ × ℤ

/-- Modelled from the spec: the boundary-constraint collaborator exposing
`project : x -> y` and `recover : y -> x` (`desc/boundary_conditions.py` is not
under `src/`). -/
structure BCConstraint where
  project : Vec → Vec
  recover : Vec → Vec

/-- Index specification for a second directional product: either the state
sentinel (argument index 0) with its direction, or a tuple of parameter-block
argument indices with one direction per block. -/
inductive JDir where
  | state (dir : Vec)
  | blocks (inds : List Nat) (dirs : List Vec)

/-- Modelled from the spec: the differentiable-objective collaborator used by
`perturb` (`compute`, `jac_x`, per-block directional products, second
directional products, the `scalar` flag and the boundary constraint); the
objective class itself is not under `src/`. `dimF` is the residual dimension.
The argument tuple `(y, Rb_mn, Zb_mn, p_l, i_l, Psi, zeta_ratio)` is passed as
a `PArgs` record. -/
structure PArgs where
  y : Vec
  Rb_mn : Vec
  Zb_mn : Vec
  p_l : Vec
  i_l : Vec
  Psi : ℚ
  zeta_ratio : ℚ

structure Objective where
  scalar : Bool
  dimF : Nat
  compute : PArgs → Vec
  jac_x : PArgs → Mat
  jvpB : Nat → Vec → PArgs → Vec
  jvp2 : JDir → JDir → PArgs → Vec
  BC_constraint : BCConstraint

/-- Modelled from the spec: the first directional product of the objective
with respect to the selected parameter blocks is the sum of the per-block
directional contributions; blocks that are not requested are treated as
constants and contribute zero (spec section 4.1). -/
def Objective.jvp (o : Objective) (inds : List Nat) (dc : List Vec)
    (args : PArgs) : Vec :=
  (List.zipWith (fun i d => o.jvpB i d args) inds dc).foldl vecAdd
    (List.replicate o.dimF 0)

structure Configuration where
  id : Nat
  x : Vec
  R_lmn : Vec
  Z_lmn : Vec
  L_lmn : Vec
  R_basis : List Mode
  Z_basis : List Mode
  L_basis : List Mode
  Rb_mn : Vec
  Zb_mn : Vec
  p_l : Vec
  i_l : Vec
  Psi : ℚ
  zeta_ratio : ℚ
  parent : Option Nat
  children : List Nat
  objective : Option Objective
  built : Bool

/-- Modelled from the spec: `desc.utils.unpack_state` is not under `src/`;
per the `Configuration` docstring the state vector is `[R_lmn, Z_lmn, L_lmn]`,
so unpacking splits at the first two mode counts. -/
def unpack_state (x : Vec) (nR nZ : Nat) : Vec × Vec × Vec :=
  (x.take nR, (x.drop nR).take nZ, (x.drop nR).drop nZ)

/-- The `x` setter of `Configuration` (configuration.py lines 347 to 354):
store the flat vector and refresh the three blocks by unpacking it at the
mode counts of the bases. -/
def Configuration.setX (c : Configuration) (xv : Vec) : Configuration :=
  let rzl := unpack_state xv c.R_basis.length c.Z_basis.length
  { c with x := xv, R_lmn := rzl.1, Z_lmn := rzl.2.1, L_lmn := rzl.2.2 }

/-- The `R_lmn` setter (configuration.py lines 361 to 364): store the block
and refresh the flat vector by concatenation. -/
def Configuration.setR_lmn (c : Configuration) (v : Vec) : Configuration :=
  { c with R_lmn := v, x := v ++ c.Z_lmn ++ c.L_lmn }

/-- The `Z_lmn` setter (configuration.py lines 371 to 374). -/
def Configuration.setZ_lmn (c : Configuration) (v : Vec) : Configuration :=
  { c with Z_lmn := v, x := c.R_lmn ++ v ++ c.L_lmn }

/-- The `L_lmn` setter (configuration.py lines 381 to 384). -/
def Configuration.setL_lmn (c : Configuration) (v : Vec) : Configuration :=
  { c with L_lmn := v, x := c.R_lmn ++ c.Z_lmn ++ v }

/-- Modelled from the spec: `desc.utils.copy_coeffs` is not under `src/`; it
maps coefficients of modes shared between the old and new basis and
zero-fills modes that are new, so the result has one entry per new mode. -/
def copy_coeffs (old : Vec) (oldModes newModes : List Mode) : Vec :=
  newModes.map (fun md =>
    match oldModes.findIdx? (fun m2 => decide (m2 = md)) with
    | some idx => old.getD idx 0
    | none => 0)

/-- `Configuration.change_resolution` (configuration.py lines 253 to 307),
after the new `FourierZernikeBasis` objects have been built (basis
construction is not under `src/`, so the new bases enter as the new mode
lists): the blocks are mapped onto the new bases with `copy_coeffs` and the
state vector is re-concatenated. The early return when the resolution is
unchanged leaves the state untouched. -/
def Configuration.change_resolution (c : Configuration)
    (newR newZ newL : List Mode) : Configuration :=
  let R2 := copy_coeffs c.R_lmn c.R_basis newR
  let Z2 := copy_coeffs c.Z_lmn c.Z_basis newZ
  let L2 := copy_coeffs c.L_lmn c.L_basis newL
  { c with R_basis := newR, Z_basis := newZ, L_basis := newL,
           R_lmn := R2, Z_lmn := Z2, L_lmn := L2, x := R2 ++ Z2 ++ L2 }

/-- The state-vector branch of `Configuration._init_from_inputs_`
(configuration.py lines 201 to 231): when `x` is given the blocks are
unpacked from it; otherwise the three blocks (`initial_guess` results for R
and Z, supplied coefficients or zeros for lambda) are concatenated. The
profile and boundary formatting, which never touches `x` or the three blocks,
is abstracted into the supplied block values. -/
def initConfiguration (id0 : Nat) (Rbasis Zbasis Lbasis : List Mode)
    (Rb Zb pl il : Vec) (PsiV zr : ℚ) (xOpt : Option Vec)
    (Rg Zg Lg : Vec) : Configuration :=
  match xOpt with
  | some xv =>
    let rzl := unpack_state xv Rbasis.length Zbasis.length
    ⟨id0, xv, rzl.1, rzl.2.1, rzl.2.2, Rbasis, Zbasis, Lbasis,
      Rb, Zb, pl, il, PsiV, zr, none, [], none, false⟩
  | none =>
    ⟨id0, Rg ++ Zg ++ Lg, Rg, Zg, Lg, Rbasis, Zbasis, Lbasis,
      Rb, Zb, pl, il, PsiV, zr, none, [], none, false⟩

/-- `Configuration.copy` (configuration.py lines 243 to 251) with
`deepcopy=True`: the returned pair is (the independent deep copy, the input
object after the call). The copy receives a fresh identity and its parent
pointer is set to the input; the input records the copy in its children
list. -/
def Configuration.copy (c : Configuration) (newId : Nat) :
    Configuration × Configuration :=
  let newc := { c with id := newId, parent := some c.id }
  (newc, { c with children := c.children ++ [newId] })

/-- The invariant relating the flat state vector and the three spectral
blocks: `x` is their concatenation and they are recovered by unpacking `x` at
the mode counts of the bases. -/
def stateConsistent (c : Configuration) : Prop :=
  c.x = c.R_lmn ++ c.Z_lmn ++ c.L_lmn ∧
  unpack_state c.x c.R_basis.length c.Z_basis.length = (c.R_lmn, c.Z_lmn, c.L_lmn)

/-! The perturbation orchestrator `perturb` of `desc/perturbations.py`. -/

/-- Parameter-block names handled by `perturb` (perturbations.py line 94). -/
inductive ParamKey where
  | Rb_mn
  | Zb_mn
  | p_l
  | i_l
  | Psi
  | zeta_ratio
deriving DecidableEq

/-- The `arg_idx` table of perturbations.py line 94: the positional argument
index of each parameter block in the objective argument tuple. -/
def argIdx : ParamKey → Nat
  | ParamKey.Rb_mn => 1
  | ParamKey.Zb_mn => 2
  | ParamKey.p_l => 3
  | ParamKey.i_l => 4
  | ParamKey.Psi => 5
  | ParamKey.zeta_ratio => 6

def isZeroVec (v : Vec) : Bool := v.all (fun q => decide (q = 0))

def deltaEntry (k : ParamKey) (o : Option Vec) : List (ParamKey × Vec) :=
  match o with
  | none => []
  | some v => if isZeroVec v then [] else [(k, v)]

/-- The delta-collection block of perturbations.py lines 77 to 89: a delta is
kept only when it is given and not identically zero; the scalar deltas for
`Psi` and `zeta_ratio` are carried as one-element vectors. -/
def collectDeltas (dRb dZb dp di : Option Vec) (dPsi dzeta_ratio : Option ℚ) :
    List (ParamKey × Vec) :=
  deltaEntry ParamKey.Rb_mn dRb ++ deltaEntry ParamKey.Zb_mn dZb ++
  deltaEntry ParamKey.p_l dp ++ deltaEntry ParamKey.i_l di ++
  deltaEntry ParamKey.Psi (dPsi.map (fun q => [q])) ++
  deltaEntry ParamKey.zeta_ratio (dzeta_ratio.map (fun q => [q]))

/-- One step of the update loop of perturbations.py lines 213 to 214:
`setattr(eq_new, key, getattr(eq_new, key) + dc)`. The `Rb_mn`, `Zb_mn`,
`p_l` and `i_l` setters only store the block; the scalar attributes are
incremented directly. -/
def applyDelta (c : Configuration) (kd : ParamKey × Vec) : Configuration :=
  match kd.1 with
  | ParamKey.Rb_mn => { c with Rb_mn := vecAdd c.Rb_mn kd.2 }
  | ParamKey.Zb_mn => { c with Zb_mn := vecAdd c.Zb_mn kd.2 }
  | ParamKey.p_l => { c with p_l := vecAdd c.p_l kd.2 }
  | ParamKey.i_l => { c with i_l := vecAdd c.i_l kd.2 }
  | ParamKey.Psi => { c with Psi := c.Psi + kd.2.headD 0 }
  | ParamKey.zeta_ratio => { c with zeta_ratio := c.zeta_ratio + kd.2.headD 0 }

/-- A numpy value that is either a scalar or a two-element array, the two
shapes the `tr_ratio` argument of `perturb` can take. -/
inductive QArr where
  | scalar (q : ℚ)
  | pair (a b : ℚ)

/-- Elementwise product of a numpy scalar-or-array with a scalar, the meaning
of the expression `tr_ratio * np.linalg.norm(y)` on line 149. -/
def QArr.mul : QArr → ℚ → QArr
  | QArr.scalar q, c => QArr.scalar (q * c)
  | QArr.pair a b, c => QArr.pair (a * c) (b * c)

/-- Errors raised on the paths of `perturb` that are modelled here:
the two `AttributeError` raises of lines 68 to 75 (the spec files these
under its `ConfigurationError` taxonomy entry), and the `ValueError` numpy
raises when an array radius reaches the boolean test of the trust-region
solver (the truth value of a multi-element array is ambiguous). -/
inductive PyError where
  | noObjective
  | scalarObjective
  | ambiguousTruthValue
deriving DecidableEq

inductive PWarning where
  | finiteDifferences
deriving DecidableEq

/-- The data `perturb` hands back, extended for the embedding with the
post-call state of the input object (`eqOrig`, which records the children
bookkeeping done by `copy`) and the two step vectors; the Python function
returns `eq_new` only. An empty step vector stands for the scalar `0` the
Python code initializes `dx1` and `dx2` with. -/
structure PerturbResult where
  eqNew : Configuration
  eqOrig : Configuration
  dx1 : Vec
  dx2 : Vec

/-- The call of `trust_region_step_exact` on perturbations.py lines 142 to
154 and 193 to 205, with the radius expression as numpy evaluates it: a
scalar radius is passed through, while a two-element array radius reaches the
boolean test on the step norm inside the solver, where numpy raises
`ValueError` (the truth value of a multi-element array is ambiguous). -/
def callTR (n m : Nat) (rhs : Vec) (u : Mat) (s : Vec) (v : Mat)
    (delta : QArr) (rtol : ℚ) (maxIter : Nat) (thr : ℚ) :
    Except PyError (Vec × Bool × ℚ) :=
  match delta with
  | QArr.scalar d =>
    Except.ok (trust_region_step_exact n m rhs u s v d none rtol maxIter thr)
  | QArr.pair _ _ => Except.error PyError.ambiguousTruthValue

/-- The order-1 and order-2 blocks of `perturb` (perturbations.py lines 108
to 205). Returns `(dx1, dx2, dy)`. The SVD of the state Jacobian is taken
once (line 120) and both solver calls reuse its factors; the pseudo-inverse
`Jxi` of line 127, the only consumer of the caller-supplied `cutoff`, is
computed and never used, exactly as in the source; both solver calls pass
the literal `rtol=0.01`, `max_iter=10` and `threshold=1e-6` of lines 151 to
153 and 202 to 204, and the radius argument is `tr_ratio` times the norm
(lines 149 and 200) with the unpacked `tr_ratio1`/`tr_ratio2` of lines 102
to 106 never used. -/
def orderSteps (svd : Mat → Mat × Vec × Mat) (nrm : Vec → ℚ) (obj : Objective)
    (args : PArgs) (y : Vec) (inds : List Nat) (dc : List Vec) (order : Nat)
    (tr_ratio : QArr) (cutoff : ℚ) (JxOpt : Option Mat) :
    Except PyError (Vec × Vec × Vec) :=
  if order > 0 then
    let Jx := match JxOpt with
      | some j => j
      | none => obj.jac_x args
    let usv := svd Jx
    let u := usv.1
    let s := usv.2.1
    let vt := usv.2.2
    let m := Jx.length
    let n := (Jx.headD []).length
    let cutoffAbs := cutoff * s.headD 0
    let s_inv := s.map (fun si => if cutoffAbs < si then 1 / si else 0)
    let _Jxi := matMul (transpose vt) (scaleRows s_inv (transpose u))
    let RHS := vecAdd (obj.compute args) (obj.jvp inds dc args)
    (callTR n m RHS u s (transpose vt) (tr_ratio.mul (nrm y))
        (1 / 100) 10 (1 / 1000000)).bind
      (fun st1 =>
        let dx1 := st1.1
        if order > 1 then
          let RHS2 := vecAdd (vecAdd
              (smul (1 / 2) (obj.jvp2 (JDir.state dx1) (JDir.state dx1) args))
              (smul (1 / 2) (obj.jvp2 (JDir.blocks inds dc)
                (JDir.blocks inds dc) args)))
            (obj.jvp2 (JDir.state dx1) (JDir.blocks inds dc) args)
          (callTR n m RHS2 u s (transpose vt) (tr_ratio.mul (nrm dx1))
              (1 / 100) 10 (1 / 1000000)).map
            (fun st2 => (dx1, st2.1, vecAdd dx1 st2.1))
        else Except.ok (dx1, [], dx1))
  else Except.ok ([], [], [])

/-- The boundary-constraint object `perturb` uses to recover the new state
(perturbations.py line 231): the one on the new equilibrium, rebuilt on lines
217 to 226 when a boundary delta was applied. -/
def bcOf (c : Configuration) (fallback : Objective) : BCConstraint :=
  match c.objective with
  | some o => o.BC_constraint
  | none => fallback.BC_constraint

/-- The application phase of `perturb` (perturbations.py lines 207 to 231):
copy or alias the equilibrium, add each collected delta to its block on the
new object, rebuild the boundary constraint when a boundary block changed
(`mkBC`, abstracting the `BoundaryConstraint` constructor which is not under
`src/`), and for a positive order set the new state vector through the `x`
setter from the recovered `y + dy`. -/
def applyStep (mkBC : Configuration → BCConstraint) (eqB : Configuration)
    (obj : Objective) (deltas : List (ParamKey × Vec)) (order : Nat)
    (copyFlag : Bool) (newId : Nat) (y dx1 dx2 dy : Vec) : PerturbResult :=
  let pair := if copyFlag then Configuration.copy eqB newId else (eqB, eqB)
  let eqUpd := deltas.foldl applyDelta pair.1
  let touchesBoundary := deltas.any (fun kd =>
    match kd.1 with
    | ParamKey.Rb_mn => true
    | ParamKey.Zb_mn => true
    | _ => false)
  let eqBC := if touchesBoundary
    then { eqUpd with objective := some { obj with BC_constraint := mkBC eqUpd } }
    else eqUpd
  let eqFinal := if order > 0
    then Configuration.setX eqBC ((bcOf eqBC obj).recover (vecAdd y dy))
    else eqBC
  let eqOrigF := if copyFlag then pair.2 else eqFinal
  ⟨eqFinal, eqOrigF, dx1, dx2⟩

/-- The body of `perturb` after the objective checks (perturbations.py lines
91 to 231): ensure the equilibrium is built, project the state onto the
reduced coordinate, run the order-1 and order-2 blocks, then apply the
deltas and the step. -/
def doPerturb (svd : Mat → Mat × Vec × Mat) (nrm : Vec → ℚ)
    (mkBC : Configuration → BCConstraint) (eq : Configuration)
    (obj : Objective) (deltas : List (ParamKey × Vec)) (order : Nat)
    (tr_ratio : QArr) (cutoff : ℚ) (JxOpt : Option Mat) (copyFlag : Bool)
    (newId : Nat) : Except PyError PerturbResult :=
  let eqB := if eq.built then eq else { eq with built := true }
  let y := obj.BC_constraint.project eqB.x
  let args : PArgs :=
    ⟨y, eqB.Rb_mn, eqB.Zb_mn, eqB.p_l, eqB.i_l, eqB.Psi, eqB.zeta_ratio⟩
  let inds := deltas.map (fun kd => argIdx kd.1)
  let dc := deltas.map (fun kd => kd.2)
  (orderSteps svd nrm obj args y inds dc order tr_ratio cutoff JxOpt).map
    (fun t => applyStep mkBC eqB obj deltas order copyFlag newId y t.1 t.2.1 t.2.2)

/-- The objective checks of `perturb` (perturbations.py lines 68 to 75): an
equilibrium without an objective, or with a scalar objective, is rejected
before any derivative or residual computation, before the deltas are even
collected. -/
def perturbCore (svd : Mat → Mat × Vec × Mat) (nrm : Vec → ℚ)
    (mkBC : Configuration → BCConstraint) (eq : Configuration)
    (dRb dZb dp di : Option Vec) (dPsi dzeta_ratio : Option ℚ) (order : Nat)
    (tr_ratio : QArr) (cutoff : ℚ) (JxOpt : Option Mat) (copyFlag : Bool)
    (newId : Nat) : Except PyError PerturbResult :=
  match eq.objective with
  | none => Except.error PyError.noObjective
  | some obj =>
    if obj.scalar then Except.error PyError.scalarObjective
    else doPerturb svd nrm mkBC eq obj
      (collectDeltas dRb dZb dp di dPsi dzeta_ratio)
      order tr_ratio cutoff JxOpt copyFlag newId

/-- The numerical environment `perturb` runs in: the differentiation backend
flag `use_jax` of `desc/backend.py` and the external numerical kernels. -/
structure PerturbEnv where
  use_jax : Bool
  svd : Mat → Mat × Vec × Mat
  norm : Vec → ℚ
  mkBC : Configuration → BCConstraint

/-- `perturb` of perturbations.py lines 14 to 237. The first component
collects the user-visible warnings (the finite-difference warning of lines
61 to 67 when JAX is unavailable); the second is the result or the raised
error. Timer output and printing are dropped. -/
def perturb (env : PerturbEnv) (eq : Configuration)
    (dRb dZb dp di : Option Vec) (dPsi dzeta_ratio : Option ℚ) (order : Nat)
    (tr_ratio : QArr) (cutoff : ℚ) (JxOpt : Option Mat) (copyFlag : Bool)
    (newId : Nat) : List PWarning × Except PyError PerturbResult :=
  ((if env.use_jax then [] else [PWarning.finiteDifferences]),
    perturbCore env.svd env.norm env.mkBC eq dRb dZb dp di dPsi dzeta_ratio
      order tr_ratio cutoff JxOpt copyFlag newId)

/-! Concrete instances used by witnesses and counterexamples. -/

def bcId : BCConstraint := ⟨fun w => w, fun w => w⟩

def objEx : Objective :=
  ⟨false, 2, fun _ => [1, 1], fun _ => [[3, 0], [0, 1]],
    fun _ _ _ => [0, 0], fun _ _ _ => [0, 0], bcId⟩

def eqEx : Configuration :=
  ⟨0, [1, 2], [1], [2], [], [(0, 0, 0)], [(0, 0, 0)], [], [5], [6], [7], [8],
    9, 1, none, [], some objEx, true⟩

def JxEx : Mat := [[3, 0], [0, 1]]

def envEx : PerturbEnv :=
  ⟨true, fun _ => ([[1, 0], [0, 1]], [3, 1], [[1, 0], [0, 1]]),
    fun _ => 100, fun _ => bcId⟩

def cEx : Configuration :=
  ⟨0, [1, 2, 3], [1], [2], [3], [(0, 0, 0)], [(1, 1, 0)], [(2, 0, 0)],
    [], [], [], [], 1, 1, none, [], none, false⟩

/-! Helper lemmas. -/

theorem normSq_nonneg (v : Vec) : 0 ≤ normSq v := by
  unfold normSq
  apply List.sum_nonneg
  intro q hq
  simp only [List.mem_map] at hq
  obtain ⟨a, _, rfl⟩ := hq
  exact mul_self_nonneg a

theorem normSq_replicate_zero (k : Nat) : normSq (List.replicate k 0) = 0 := by
  induction k with
  | zero => rfl
  | succ j ih => simpa [normSq, List.replicate_succ] using ih

theorem sq_radius_le (D rtol : ℚ) (hD : 0 ≤ D) (hr : 0 ≤ rtol) :
    D * D ≤ sq (D * (1 + rtol)) := by
  unfold sq
  nlinarith [mul_nonneg (mul_self_nonneg D) hr,
    mul_nonneg (mul_self_nonneg D) (mul_self_nonneg rtol)]

theorem findHi_le (dxOf : ℚ → Vec) (dsq : ℚ) :
    ∀ (fuel : Nat) (a hi : ℚ), findHi dxOf dsq fuel a = some hi →
      normSq (dxOf hi) ≤ dsq := by
  intro fuel
  induction fuel with
  | zero =>
    intro a hi h
    simp [findHi] at h
  | succ k ih =>
    intro a hi h
    unfold findHi at h
    by_cases hc : normSq (dxOf a) ≤ dsq
    · rw [if_pos hc] at h
      injection h with h2
      subst h2
      exact hc
    · rw [if_neg hc] at h
      exact ih (2 * a) hi h

theorem bisectTR_le (dxOf : ℚ → Vec) (D rtol : ℚ) (hD : 0 ≤ D) (hr : 0 ≤ rtol) :
    ∀ (fuel : Nat) (lo hi : ℚ), normSq (dxOf hi) ≤ D * D →
      normSq (bisectTR dxOf D rtol fuel lo hi).1 ≤ sq (D * (1 + rtol)) := by
  intro fuel
  induction fuel with
  | zero =>
    intro lo hi hhi
    exact le_trans hhi (sq_radius_le D rtol hD hr)
  | succ k ih =>
    intro lo hi hhi
    simp only [bisectTR]
    split
    next hcond => exact hcond.2
    next hcond =>
      split
      next h2 => exact ih ((lo + hi) / 2) hi hhi
      next h2 => exact ih lo ((lo + hi) / 2) (le_of_not_lt h2)

/-- C3: for all dimensions, SVD factors, right-hand side and radius
`Delta > 0`, the step returned by `trust_region_step_exact` satisfies
`norm dx <= Delta * (1 + rtol)` (stated on squared norms); and whenever the
unconstrained least-squares solution `dx0` already fits in the trust region,
the solver returns `dx0` exactly, with `hit = false` and `alpha = 0`. -/
theorem trust_region_step_exact_bound (n m : Nat) (f : Vec) (u : Mat) (s : Vec)
    (v : Mat) (Delta : ℚ) (ia : Option ℚ) (rtol : ℚ) (mi : Nat) (th : ℚ)
    (hD : 0 < Delta) (hr : 0 ≤ rtol) :
    normSq (trust_region_step_exact n m f u s v Delta ia rtol mi th).1 ≤
      sq (Delta * (1 + rtol)) ∧
    (normSq (dx0Vec f u s v th) ≤ Delta * Delta →
      trust_region_step_exact n m f u s v Delta ia rtol mi th =
        (dx0Vec f u s v th, false, 0)) := by
  have hD0 : 0 ≤ Delta := le_of_lt hD
  constructor
  · unfold trust_region_step_exact
    dsimp only
    split
    next hp => exact le_trans hp (sq_radius_le Delta rtol hD0 hr)
    next hp =>
      split
      next hi hfind =>
        exact bisectTR_le _ Delta rtol hD0 hr mi 0 hi (findHi_le _ _ _ _ _ hfind)
      next hfind =>
        simpa [normSq_replicate_zero] using mul_self_nonneg (Delta * (1 + rtol))
  · intro hp
    unfold trust_region_step_exact
    dsimp only
    rw [if_pos hp]

theorem unpack_append (a b d : Vec) (na nb : Nat) (ha : a.length = na)
    (hb : b.length = nb) : unpack_state (a ++ b ++ d) na nb = (a, b, d) := by
  subst ha
  subst hb
  unfold unpack_state
  rw [List.append_assoc, List.take_left, List.drop_left, List.take_left,
    List.drop_left]

theorem concat_unpack (x : Vec) (nR nZ : Nat) :
    x.take nR ++ (x.drop nR).take nZ ++ (x.drop nR).drop nZ = x := by
  rw [List.append_assoc, List.take_append_drop, List.take_append_drop]

theorem copy_coeffs_length (old : Vec) (om nm : List Mode) :
    (copy_coeffs old om nm).length = nm.length := by
  unfold copy_coeffs
  exact List.length_map _ _

theorem vecAdd_replicate_zero (v : Vec) (k : Nat) (h : v.length = k) :
    vecAdd v (List.replicate k 0) = v := by
  subst h
  induction v with
  | nil => rfl
  | cons a t ih =>
    simp only [vecAdd, List.length_cons, List.replicate_succ,
      List.zipWith_cons_cons, add_zero] at ih ⊢
    exact congrArg (a :: ·) ih

/-- C10: the `Configuration` state invariant. After construction (both the
branch that unpacks a supplied `x` and the branch that concatenates the
initial blocks), after each of the `x`, `R_lmn`, `Z_lmn` and `L_lmn`
setters, and after `change_resolution`, the flat state vector equals the
concatenation of the three blocks and the blocks equal the unpacking of `x`
at the mode counts of the bases. The block setters preserve the invariant
when the supplied and retained blocks have the sizes of their bases, which
the bases themselves guarantee in the source. -/
theorem configuration_state_vector_invariant :
    (∀ (id0 : Nat) (Rb Zb Lb : List Mode) (bR bZ bp bi : Vec) (PsiV zr : ℚ)
        (xv Rg Zg Lg : Vec),
      stateConsistent
        (initConfiguration id0 Rb Zb Lb bR bZ bp bi PsiV zr (some xv) Rg Zg Lg)) ∧
    (∀ (id0 : Nat) (Rb Zb Lb : List Mode) (bR bZ bp bi : Vec) (PsiV zr : ℚ)
        (Rg Zg Lg : Vec), Rg.length = Rb.length → Zg.length = Zb.length →
      stateConsistent
        (initConfiguration id0 Rb Zb Lb bR bZ bp bi PsiV zr none Rg Zg Lg)) ∧
    (∀ (c : Configuration) (xv : Vec), stateConsistent (c.setX xv)) ∧
    (∀ (c : Configuration) (v : Vec), v.length = c.R_basis.length →
      c.Z_lmn.length = c.Z_basis.length → stateConsistent (c.setR_lmn v)) ∧
    (∀ (c : Configuration) (v : Vec), c.R_lmn.length = c.R_basis.length →
      v.length = c.Z_basis.length → stateConsistent (c.setZ_lmn v)) ∧
    (∀ (c : Configuration) (v : Vec), c.R_lmn.length = c.R_basis.length →
      c.Z_lmn.length = c.Z_basis.length → stateConsistent (c.setL_lmn v)) ∧
    (∀ (c : Configuration) (nR nZ nL : List Mode),
      stateConsistent (c.change_resolution nR nZ nL)) := by
  refine ⟨?_, ?_, ?_, ?_, ?_, ?_, ?_⟩
  · intro id0 Rb Zb Lb bR bZ bp bi PsiV zr xv Rg Zg Lg
    exact ⟨(concat_unpack xv Rb.length Zb.length).symm, rfl⟩
  · intro id0 Rb Zb Lb bR bZ bp bi PsiV zr Rg Zg Lg hR hZ
    exact ⟨rfl, unpack_append Rg Zg Lg _ _ hR hZ⟩
  · intro c xv
    exact ⟨(concat_unpack xv c.R_basis.length c.Z_basis.length).symm, rfl⟩
  · intro c v hv hZ
    exact ⟨rfl, unpack_append v c.Z_lmn c.L_lmn _ _ hv hZ⟩
  · intro c v hR hv
    exact ⟨rfl, unpack_append c.R_lmn v c.L_lmn _ _ hR hv⟩
  · intro c v hR hZ
    exact ⟨rfl, unpack_append c.R_lmn c.Z_lmn v _ _ hR hZ⟩
  · intro c nR nZ nL
    exact ⟨rfl, unpack_append _ _ _ _ _ (copy_coeffs_length _ _ _)
      (copy_coeffs_length _ _ _)⟩

theorem configuration_state_vector_invariant_witness :
    [(5 : ℚ)].length = cEx.R_basis.length ∧
    cEx.Z_lmn.length = cEx.Z_basis.length ∧
    stateConsistent (cEx.setR_lmn [5]) :=
  ⟨by decide, by decide,
    configuration_state_vector_invariant.2.2.2.1 cEx [5] (by decide) (by decide)⟩

theorem trust_region_step_exact_bound_witness :
    (0 : ℚ) < 1 ∧
    normSq (trust_region_step_exact 1 1 [4] [[1]] [1] [[1]] 1 none (1 / 100) 10
      (1 / 1000000)).1 ≤ sq ((1 : ℚ) * (1 + 1 / 100)) :=
  ⟨by norm_num,
    (trust_region_step_exact_bound 1 1 [4] [[1]] [1] [[1]] 1 none (1 / 100) 10
      (1 / 1000000) (by norm_num) (by norm_num)).1⟩

/-- C1: evaluation at the failing input. With a two-element `tr_ratio` the
radius expression `tr_ratio * norm(y)` is a two-element array and the call
raises inside the solver, instead of solving the first subproblem with radius
`r1 * norm(y)` and the second with `r2 * norm(dx1)` as the docstring states:
the unpacked `tr_ratio1`/`tr_ratio2` of perturbations.py lines 102 to 106
are never used. -/
theorem perturb_tr_ratio_pair_raises :
    (perturb envEx eqEx none none none none none none 1
      (QArr.pair (1 / 10) (1 / 20)) (1 / 1000000) (some JxEx) true 7).2 =
      Except.error PyError.ambiguousTruthValue := rfl

/-- C4: evaluation at the failing input. The singular values are `[3, 1]`;
`cutoff = 1/2` reclassifies the singular value `1` (it is below `(1/2) * 3`)
while the default `1e-6` keeps it, yet the two calls return identical
results, because the caller-supplied cutoff only enters the unused matrix
`Jxi` of perturbations.py line 127 while both solver calls hardcode
`threshold = 1e-6`. -/
theorem perturb_cutoff_has_no_effect_on_step :
    (perturb envEx eqEx none none none none none none 1 (QArr.scalar (1 / 10))
        (1 / 1000000) (some JxEx) true 7).2 =
      (perturb envEx eqEx none none none none none none 1 (QArr.scalar (1 / 10))
        (1 / 2) (some JxEx) true 7).2 ∧
    ((1 : ℚ) < (1 / 2) * 3 ∧ ¬ ((1 : ℚ) < (1 / 1000000) * 3)) :=
  ⟨rfl, by norm_num⟩

/-- C5: an equilibrium with no objective, or with a scalar objective, is
rejected with the corresponding error (the `AttributeError` raises of
perturbations.py lines 68 to 75, filed by the spec under its
`ConfigurationError` entry) for every choice of deltas, order, numerical
environment and objective callbacks, so the rejection happens before any
derivative or residual computation and no state is touched. -/
theorem perturb_rejects_missing_or_scalar_objective
    (uj : Bool) (svd : Mat → Mat × Vec × Mat) (nrm : Vec → ℚ)
    (mkBC : Configuration → BCConstraint) (id0 : Nat) (xv R Z L : Vec)
    (rb zb lb : List Mode) (Rb Zb pl il : Vec) (PsiV zr : ℚ)
    (par : Option Nat) (ch : List Nat) (bt : Bool) (dimF : Nat)
    (compute : PArgs → Vec) (jac_x : PArgs → Mat)
    (jvpB : Nat → Vec → PArgs → Vec) (jvp2 : JDir → JDir → PArgs → Vec)
    (bc : BCConstraint) (dRb dZb dp di : Option Vec) (dPsi dz : Option ℚ)
    (order : Nat) (tr : QArr) (cutoff : ℚ) (JxO : Option Mat) (cp : Bool)
    (newId : Nat) :
    (perturb ⟨uj, svd, nrm, mkBC⟩
      ⟨id0, xv, R, Z, L, rb, zb, lb, Rb, Zb, pl, il, PsiV, zr, par, ch,
        none, bt⟩
      dRb dZb dp di dPsi dz order tr cutoff JxO cp newId).2 =
      Except.error PyError.noObjective ∧
    (perturb ⟨uj, svd, nrm, mkBC⟩
      ⟨id0, xv, R, Z, L, rb, zb, lb, Rb, Zb, pl, il, PsiV, zr, par, ch,
        some ⟨true, dimF, compute, jac_x, jvpB, jvp2, bc⟩, bt⟩
      dRb dZb dp di dPsi dz order tr cutoff JxO cp newId).2 =
      Except.error PyError.scalarObjective :=
  ⟨rfl, rfl⟩

/-- C8: when JAX is unavailable `perturb` surfaces the finite-difference
accuracy warning and then proceeds: for every input the non-warning part of
the outcome is identical to the outcome with JAX available, and in
particular the condition itself never produces an error. -/
theorem perturb_finite_difference_warning
    (svd : Mat → Mat × Vec × Mat) (nrm : Vec → ℚ)
    (mkBC : Configuration → BCConstraint) (eq : Configuration)
    (dRb dZb dp di : Option Vec) (dPsi dz : Option ℚ) (order : Nat)
    (tr : QArr) (cutoff : ℚ) (JxO : Option Mat) (cp : Bool) (newId : Nat) :
    (perturb ⟨false, svd, nrm, mkBC⟩ eq dRb dZb dp di dPsi dz order tr cutoff
      JxO cp newId).1 = [PWarning.finiteDifferences] ∧
    (perturb ⟨false, svd, nrm, mkBC⟩ eq dRb dZb dp di dPsi dz order tr cutoff
      JxO cp newId).2 =
    (perturb ⟨true, svd, nrm, mkBC⟩ eq dRb dZb dp di dPsi dz order tr cutoff
      JxO cp newId).2 :=
  ⟨rfl, rfl⟩

/-- C2: with `order = 2` the second right-hand side is half the (state,state)
second directional product with `dx1` in both directions, plus half the
(param,param) second directional product with the requested deltas in both
directions, plus the mixed (state,param) product with `dx1` and the deltas;
and the second trust-region solve receives the same SVD factors of `Jx` that
the first-order step used, with radius `tr_ratio * norm(dx1)`. -/
theorem perturb_second_order_rhs_and_svd_reuse
    (uj : Bool) (svd : Mat → Mat × Vec × Mat) (nrm : Vec → ℚ)
    (mkBC : Configuration → BCConstraint) (id0 : Nat) (xv R Z L : Vec)
    (rb zb lb : List Mode) (Rb Zb pl il : Vec) (PsiV zr : ℚ)
    (par : Option Nat) (ch : List Nat) (dimF : Nat) (compute : PArgs → Vec)
    (jac_x : PArgs → Mat) (jvpB : Nat → Vec → PArgs → Vec)
    (jvp2 : JDir → JDir → PArgs → Vec) (bc : BCConstraint)
    (dRb dZb dp di : Option Vec) (dPsi dz : Option ℚ) (tr cutoff : ℚ)
    (newId : Nat) :
    (let obj : Objective := ⟨false, dimF, compute, jac_x, jvpB, jvp2, bc⟩
     let eqC : Configuration :=
       ⟨id0, xv, R, Z, L, rb, zb, lb, Rb, Zb, pl, il, PsiV, zr, par, ch,
         some obj, true⟩
     let deltas := collectDeltas dRb dZb dp di dPsi dz
     let y := bc.project xv
     let args : PArgs := ⟨y, Rb, Zb, pl, il, PsiV, zr⟩
     let inds := deltas.map (fun kd => argIdx kd.1)
     let dc := deltas.map (fun kd => kd.2)
     let Jx := jac_x args
     let u := (svd Jx).1
     let s := (svd Jx).2.1
     let vt := (svd Jx).2.2
     let dx1 := (trust_region_step_exact (Jx.headD []).length Jx.length
         (vecAdd (compute args) (Objective.jvp obj inds dc args)) u s
         (transpose vt) (tr * nrm y) none (1 / 100) 10 (1 / 1000000)).1
     let RHS2 := vecAdd (vecAdd
         (smul (1 / 2) (jvp2 (JDir.state dx1) (JDir.state dx1) args))
         (smul (1 / 2) (jvp2 (JDir.blocks inds dc) (JDir.blocks inds dc) args)))
       (jvp2 (JDir.state dx1) (JDir.blocks inds dc) args)
     ((perturb ⟨uj, svd, nrm, mkBC⟩ eqC dRb dZb dp di dPsi dz 2
         (QArr.scalar tr) cutoff none true newId).2).toOption.map
       (fun r => r.dx2) =
       some (trust_region_step_exact (Jx.headD []).length Jx.length RHS2 u s
         (transpose vt) (tr * nrm dx1) none (1 / 100) 10 (1 / 1000000)).1) := by
  rfl

/-- C7: with all deltas absent or zero and `order = 1`, the step `dx1` equals
the trust-region correction of the base residual `compute(args)` alone: the
parameter-sensitivity directional product ranges over no blocks and
contributes the zero vector to the right-hand side. -/
theorem perturb_zero_deltas_first_order
    (uj : Bool) (svd : Mat → Mat × Vec × Mat) (nrm : Vec → ℚ)
    (mkBC : Configuration → BCConstraint) (id0 : Nat) (xv R Z L : Vec)
    (rb zb lb : List Mode) (Rb Zb pl il : Vec) (PsiV zr : ℚ)
    (par : Option Nat) (ch : List Nat) (dimF : Nat) (compute : PArgs → Vec)
    (jac_x : PArgs → Mat) (jvpB : Nat → Vec → PArgs → Vec)
    (jvp2 : JDir → JDir → PArgs → Vec) (bc : BCConstraint)
    (dRb dZb dp di : Option Vec) (dPsi dz : Option ℚ) (tr cutoff : ℚ)
    (newId : Nat)
    (h : collectDeltas dRb dZb dp di dPsi dz = [])
    (hlen : (compute ⟨bc.project xv, Rb, Zb, pl, il, PsiV, zr⟩).length = dimF) :
    (let obj : Objective := ⟨false, dimF, compute, jac_x, jvpB, jvp2, bc⟩
     let eqC : Configuration :=
       ⟨id0, xv, R, Z, L, rb, zb, lb, Rb, Zb, pl, il, PsiV, zr, par, ch,
         some obj, true⟩
     let y := bc.project xv
     let args : PArgs := ⟨y, Rb, Zb, pl, il, PsiV, zr⟩
     let Jx := jac_x args
     ((perturb ⟨uj, svd, nrm, mkBC⟩ eqC dRb dZb dp di dPsi dz 1
         (QArr.scalar tr) cutoff none true newId).2).toOption.map
       (fun r => r.dx1) =
       some (trust_region_step_exact (Jx.headD []).length Jx.length
         (compute args) (svd Jx).1 (svd Jx).2.1 (transpose (svd Jx).2.2)
         (tr * nrm y) none (1 / 100) 10 (1 / 1000000)).1) := by
  simp only [perturb, perturbCore, h]
  conv_rhs => rw [← vecAdd_replicate_zero
    (compute ⟨bc.project xv, Rb, Zb, pl, il, PsiV, zr⟩) dimF hlen]
  rfl

/-- C6: with every delta absent or zero and `order = 0` (`copy = True`,
the default), `perturb` returns a fresh equilibrium whose state vector and
all six parameter blocks are identical to those of the input, and the input
keeps its own state vector and parameter blocks. -/
theorem perturb_noop_identity
    (uj : Bool) (svd : Mat → Mat × Vec × Mat) (nrm : Vec → ℚ)
    (mkBC : Configuration → BCConstraint) (id0 : Nat) (xv R Z L : Vec)
    (rb zb lb : List Mode) (Rb Zb pl il : Vec) (PsiV zr : ℚ)
    (par : Option Nat) (ch : List Nat) (dimF : Nat) (compute : PArgs → Vec)
    (jac_x : PArgs → Mat) (jvpB : Nat → Vec → PArgs → Vec)
    (jvp2 : JDir → JDir → PArgs → Vec) (bc : BCConstraint)
    (dRb dZb dp di : Option Vec) (dPsi dz : Option ℚ) (tr : QArr)
    (cutoff : ℚ) (JxO : Option Mat) (newId : Nat)
    (h : collectDeltas dRb dZb dp di dPsi dz = []) :
    (let obj : Objective := ⟨false, dimF, compute, jac_x, jvpB, jvp2, bc⟩
     let eqC : Configuration :=
       ⟨id0, xv, R, Z, L, rb, zb, lb, Rb, Zb, pl, il, PsiV, zr, par, ch,
         some obj, true⟩
     ((perturb ⟨uj, svd, nrm, mkBC⟩ eqC dRb dZb dp di dPsi dz 0 tr cutoff
         JxO true newId).2).toOption.map
       (fun r => (r.eqNew.x, r.eqNew.Rb_mn, r.eqNew.Zb_mn, r.eqNew.p_l,
         r.eqNew.i_l, r.eqNew.Psi, r.eqNew.zeta_ratio, r.eqOrig.x,
         r.eqOrig.Rb_mn, r.eqOrig.Zb_mn, r.eqOrig.p_l, r.eqOrig.i_l,
         r.eqOrig.Psi, r.eqOrig.zeta_ratio)) =
       some (xv, Rb, Zb, pl, il, PsiV, zr, xv, Rb, Zb, pl, il, PsiV, zr)) := by
  simp only [perturb, perturbCore, h]
  rfl

/-- C9: with `copy = True` all parameter-block updates and the new state
vector land on the deep copy: the copy carries the incremented blocks, its
state vector is recovered from `y + dx1 + dx2` through the boundary
constraint rebuilt on the updated copy, its parent pointer names the input,
the input records the copy in its children list, and the input keeps its own
state vector and parameter blocks. -/
theorem perturb_copy_parent_child_frame
    (uj : Bool) (svd : Mat → Mat × Vec × Mat) (nrm : Vec → ℚ)
    (mkBC : Configuration → BCConstraint) (id0 : Nat) (xv R Z L : Vec)
    (rb zb lb : List Mode) (Rb Zb pl il : Vec) (PsiV zr : ℚ)
    (par : Option Nat) (ch : List Nat) (dimF : Nat) (compute : PArgs → Vec)
    (jac_x : PArgs → Mat) (jvpB : Nat → Vec → PArgs → Vec)
    (jvp2 : JDir → JDir → PArgs → Vec) (bc : BCConstraint)
    (dRb dZb dp di : Option Vec) (dPsi dz : Option ℚ) (v1 v2 v3 v4 : Vec)
    (q5 q6 : ℚ) (tr cutoff : ℚ) (newId : Nat)
    (hAll : collectDeltas dRb dZb dp di dPsi dz =
      [(ParamKey.Rb_mn, v1), (ParamKey.Zb_mn, v2), (ParamKey.p_l, v3),
        (ParamKey.i_l, v4), (ParamKey.Psi, [q5]), (ParamKey.zeta_ratio, [q6])]) :
    (let obj : Objective := ⟨false, dimF, compute, jac_x, jvpB, jvp2, bc⟩
     let eqC : Configuration :=
       ⟨id0, xv, R, Z, L, rb, zb, lb, Rb, Zb, pl, il, PsiV, zr, par, ch,
         some obj, true⟩
     let deltas : List (ParamKey × Vec) :=
       [(ParamKey.Rb_mn, v1), (ParamKey.Zb_mn, v2), (ParamKey.p_l, v3),
         (ParamKey.i_l, v4), (ParamKey.Psi, [q5]), (ParamKey.zeta_ratio, [q6])]
     let y := bc.project xv
     let args : PArgs := ⟨y, Rb, Zb, pl, il, PsiV, zr⟩
     let inds := deltas.map (fun kd => argIdx kd.1)
     let dc := deltas.map (fun kd => kd.2)
     let Jx := jac_x args
     let u := (svd Jx).1
     let s := (svd Jx).2.1
     let vt := (svd Jx).2.2
     let dx1 := (trust_region_step_exact (Jx.headD []).length Jx.length
         (vecAdd (compute args) (Objective.jvp obj inds dc args)) u s
         (transpose vt) (tr * nrm y) none (1 / 100) 10 (1 / 1000000)).1
     let RHS2 := vecAdd (vecAdd
         (smul (1 / 2) (jvp2 (JDir.state dx1) (JDir.state dx1) args))
         (smul (1 / 2) (jvp2 (JDir.blocks inds dc) (JDir.blocks inds dc) args)))
       (jvp2 (JDir.state dx1) (JDir.blocks inds dc) args)
     let dx2 := (trust_region_step_exact (Jx.headD []).length Jx.length RHS2
         u s (transpose vt) (tr * nrm dx1) none (1 / 100) 10 (1 / 1000000)).1
     let eqUpd : Configuration :=
       ⟨newId, xv, R, Z, L, rb, zb, lb, vecAdd Rb v1, vecAdd Zb v2,
         vecAdd pl v3, vecAdd il v4, PsiV + q5, zr + q6, some id0, ch,
         some obj, true⟩
     ((perturb ⟨uj, svd, nrm, mkBC⟩ eqC dRb dZb dp di dPsi dz 2
         (QArr.scalar tr) cutoff none true newId).2).toOption.map
       (fun r => (r.eqNew.x, r.eqNew.Rb_mn, r.eqNew.Zb_mn, r.eqNew.p_l,
         r.eqNew.i_l, r.eqNew.Psi, r.eqNew.zeta_ratio, r.eqNew.parent,
         r.eqOrig.children, r.eqOrig.x, r.eqOrig.Rb_mn, r.eqOrig.Zb_mn,
         r.eqOrig.p_l, r.eqOrig.i_l, r.eqOrig.Psi, r.eqOrig.zeta_ratio)) =
       some ((mkBC eqUpd).recover (vecAdd y (vecAdd dx1 dx2)),
         vecAdd Rb v1, vecAdd Zb v2, vecAdd pl v3, vecAdd il v4,
         PsiV + q5, zr + q6, some id0, ch ++ [newId],
         xv, Rb, Zb, pl, il, PsiV, zr)) := by
  simp only [perturb, perturbCore, hAll]
  rfl

theorem perturb_noop_identity_witness :
    collectDeltas none none (some [0]) none none none = [] ∧
    ((perturb envEx eqEx none none (some [0]) none none none 0
        (QArr.scalar (1 / 10)) (1 / 1000000) none true 3).2).toOption.map
      (fun r => (r.eqNew.x, r.eqNew.Rb_mn, r.eqNew.Zb_mn, r.eqNew.p_l,
        r.eqNew.i_l, r.eqNew.Psi, r.eqNew.zeta_ratio, r.eqOrig.x,
        r.eqOrig.Rb_mn, r.eqOrig.Zb_mn, r.eqOrig.p_l, r.eqOrig.i_l,
        r.eqOrig.Psi, r.eqOrig.zeta_ratio)) =
      some ([1, 2], [5], [6], [7], [8], 9, 1, [1, 2], [5], [6], [7], [8], 9, 1) :=
  ⟨rfl,
    perturb_noop_identity true envEx.svd envEx.norm envEx.mkBC 0 [1, 2] [1]
      [2] [] [(0, 0, 0)] [(0, 0, 0)] [] [5] [6] [7] [8] 9 1 none [] 2
      objEx.compute objEx.jac_x objEx.jvpB objEx.jvp2 objEx.BC_constraint
      none none (some [0]) none none none (QArr.scalar (1 / 10)) (1 / 1000000)
      none 3 rfl⟩

theorem perturb_zero_deltas_first_order_witness :
    collectDeltas none none none none none none = [] ∧
    (objEx.compute ⟨bcId.project [1, 2], [5], [6], [7], [8], 9, 1⟩).length = 2 ∧
    ((perturb envEx eqEx none none none none none none 1 (QArr.scalar (1 / 10))
        (1 / 1000000) none true 3).2).toOption.map (fun r => r.dx1) =
      some (trust_region_step_exact 2 2 [1, 1] [[1, 0], [0, 1]] [3, 1]
        (transpose [[1, 0], [0, 1]]) (1 / 10 * 100) none (1 / 100) 10
        (1 / 1000000)).1 :=
  ⟨rfl, rfl,
    perturb_zero_deltas_first_order true envEx.svd envEx.norm envEx.mkBC 0
      [1, 2] [1] [2] [] [(0, 0, 0)] [(0, 0, 0)] [] [5] [6] [7] [8] 9 1 none []
      2 objEx.compute objEx.jac_x objEx.jvpB objEx.jvp2 objEx.BC_constraint
      none none none none none none (1 / 10) (1 / 1000000) 3 rfl rfl⟩

theorem perturb_copy_parent_child_frame_witness :
    collectDeltas (some [1]) (some [2]) (some [3]) (some [4]) (some 5)
        (some 6) =
      [(ParamKey.Rb_mn, [1]), (ParamKey.Zb_mn, [2]), (ParamKey.p_l, [3]),
        (ParamKey.i_l, [4]), (ParamKey.Psi, [5]), (ParamKey.zeta_ratio, [6])] ∧
    (let obj : Objective := ⟨false, 2, objEx.compute, objEx.jac_x, objEx.jvpB,
        objEx.jvp2, objEx.BC_constraint⟩
     let eqC : Configuration := ⟨0, [1, 2], [1], [2], [], [(0, 0, 0)],
        [(0, 0, 0)], [], [5], [6], [7], [8], 9, 1, none, [], some obj, true⟩
     let deltas : List (ParamKey × Vec) :=
       [(ParamKey.Rb_mn, [1]), (ParamKey.Zb_mn, [2]), (ParamKey.p_l, [3]),
         (ParamKey.i_l, [4]), (ParamKey.Psi, [5]), (ParamKey.zeta_ratio, [6])]
     let y := objEx.BC_constraint.project [1, 2]
     let args : PArgs := ⟨y, [5], [6], [7], [8], 9, 1⟩
     let inds := deltas.map (fun kd => argIdx kd.1)
     let dc := deltas.map (fun kd => kd.2)
     let Jx := objEx.jac_x args
     let u := (envEx.svd Jx).1
     let s := (envEx.svd Jx).2.1
     let vt := (envEx.svd Jx).2.2
     let dx1 := (trust_region_step_exact (Jx.headD []).length Jx.length
         (vecAdd (objEx.compute args) (Objective.jvp obj inds dc args)) u s
         (transpose vt) (1 / 10 * envEx.norm y) none (1 / 100) 10
         (1 / 1000000)).1
     let RHS2 := vecAdd (vecAdd
         (smul (1 / 2) (objEx.jvp2 (JDir.state dx1) (JDir.state dx1) args))
         (smul (1 / 2) (objEx.jvp2 (JDir.blocks inds dc)
           (JDir.blocks inds dc) args)))
       (objEx.jvp2 (JDir.state dx1) (JDir.blocks inds dc) args)
     let dx2 := (trust_region_step_exact (Jx.headD []).length Jx.length RHS2
         u s (transpose vt) (1 / 10 * envEx.norm dx1) none (1 / 100) 10
         (1 / 1000000)).1
     let eqUpd : Configuration := ⟨3, [1, 2], [1], [2], [], [(0, 0, 0)],
         [(0, 0, 0)], [], vecAdd [5] [1], vecAdd [6] [2], vecAdd [7] [3],
         vecAdd [8] [4], 9 + 5, 1 + 6, some 0, [], some obj, true⟩
     ((perturb ⟨true, envEx.svd, envEx.norm, envEx.mkBC⟩ eqC (some [1])
         (some [2]) (some [3]) (some [4]) (some 5) (some 6) 2
         (QArr.scalar (1 / 10)) (1 / 1000000) none true 3).2).toOption.map
       (fun r => (r.eqNew.x, r.eqNew.Rb_mn, r.eqNew.Zb_mn, r.eqNew.p_l,
         r.eqNew.i_l, r.eqNew.Psi, r.eqNew.zeta_ratio, r.eqNew.parent,
         r.eqOrig.children, r.eqOrig.x, r.eqOrig.Rb_mn, r.eqOrig.Zb_mn,
         r.eqOrig.p_l, r.eqOrig.i_l, r.eqOrig.Psi, r.eqOrig.zeta_ratio)) =
       some ((envEx.mkBC eqUpd).recover (vecAdd y (vecAdd dx1 dx2)),
         vecAdd [5] [1], vecAdd [6] [2], vecAdd [7] [3], vecAdd [8] [4],
         9 + 5, 1 + 6, some 0, [] ++ [3], [1, 2], [5], [6], [7], [8], 9, 1)) :=
  ⟨rfl,
    perturb_copy_parent_child_frame true envEx.svd envEx.norm envEx.mkBC 0
      [1, 2] [1] [2] [] [(0, 0, 0)] [(0, 0, 0)] [] [5] [6] [7] [8] 9 1 none []
      2 objEx.compute objEx.jac_x objEx.jvpB objEx.jvp2 objEx.BC_constraint
      (some [1]) (some [2]) (some [3]) (some [4]) (some 5) (some 6)
      [1] [2] [3] [4] 5 6 (1 / 10) (1 / 1000000) 3 rfl⟩

end DESC
